import Mathlib

/-!
Verification of the AI-Powered Job Market Insights dashboard (`new.py`).

The program is a single-file Streamlit application: it loads a CSV into a
pandas DataFrame (memoized by `st.cache_data`), and renders one of three
pages (Overview, Exploratory Data Analysis, Visualizations) plus an
optional raw-data table.  This file gives a shallow embedding of its data
model and of every computation the verified properties touch:

* cells of the loaded table (`Cell`): missing (`na`, pandas `NaN`),
  string, or numeric;
* the CSV loader `load_data` (pandas `read_csv` semantics to the extent
  exercised: header row, comma fields, empty fields become `NaN`, a data
  row with more fields than the header is a parse error, blank lines are
  skipped);
* the Streamlit cache wrapper (`callLoadData`): a per-session cache keyed
  on nothing, filled on the first successful call;
* the Overview statistics `df.isnull().sum()` (`isnullSum`) and
  `df.duplicated().sum()` (`duplicatedSum`, pandas `keep=first`:
  a row is marked when an identical row occurs earlier);
* the EDA unique-value report (`Series.unique` keeps order of first
  appearance, `Series.nunique` counts distinct non-null values);
* the six Visualizations charts, in particular the matplotlib pie routine
  (`plotPie`): pandas `Series.plot(kind=pie)` / `ax.pie` with an
  `explode` tuple raises when the tuple length differs from the number of
  wedges, and `autopct='%1.1f%%'` labels each wedge with its share of the
  total as a percentage rounded to one decimal (modelled in tenths of a
  percent, an integer);
* the top-to-bottom script run `runScript`: Streamlit reruns the script
  per interaction; widget state (page, chart, raw-data toggle) is read
  but never written, and the script aborts at the first uncaught
  exception (modelled by `Except`).
-/

namespace JobMarket

/-- A cell of the loaded table: missing (pandas NaN), a string, or a number.
Numbers are modelled as rationals. -/
inductive Cell where
  | na : Cell
  | str : String → Cell
  | num : ℚ → Cell
deriving DecidableEq

/-- A row of the table, one cell per column. -/
abbrev Row := List Cell

/-- The loaded table: column names from the CSV header, then the rows. -/
structure Dataset where
  cols : List String
  rows : List Row
deriving DecidableEq

/-- Boolean test for a missing cell. -/
def isNA : Cell → Bool
  | Cell.na => true
  | _ => false

/-- Boolean test for a numeric cell. -/
def isNum : Cell → Bool
  | Cell.num _ => true
  | _ => false

/-- Index of a column name in the header (header length when absent). -/
def colIdx (d : Dataset) (c : String) : ℕ := d.cols.indexOf c

/-- Cell of a row at a column index; out-of-range reads are missing,
matching the NaN padding `load_data` applies to short rows. -/
def getCell (r : Row) (i : ℕ) : Cell := r.getD i Cell.na

/-- The column of a dataset under a given name, as the list of its cells
in row order (`df[col]`). -/
def getCol (d : Dataset) (c : String) : List Cell :=
  d.rows.map (fun r => getCell r (colIdx d c))

/-! ### CSV loading (`pd.read_csv` inside `load_data`, new.py lines 10-14) -/

/-- Splits a character list on a separator; the result is always
nonempty (an empty input gives one empty field). -/
def splitOnChar (sep : Char) : List Char → List (List Char)
  | [] => [[]]
  | c :: cs =>
    match splitOnChar sep cs with
    | [] => [[]]
    | f :: rest => if c = sep then [] :: f :: rest else (c :: f) :: rest

/-- Digits of a decimal numeral, most significant first. -/
def parseNatChars : List Char → Option ℕ
  | [] => none
  | cs => cs.foldl
      (fun acc c =>
        match acc with
        | none => none
        | some n => if c.isDigit then some (10 * n + (c.toNat - 48)) else none)
      (some 0)

/-- An optionally signed decimal numeral. -/
def parseIntChars : List Char → Option ℤ
  | [] => none
  | c :: cs =>
    if c = '-' then (parseNatChars cs).map (fun n => -(n : ℤ))
    else (parseNatChars (c :: cs)).map (fun n => (n : ℤ))

/-- One CSV field: empty fields load as missing (pandas default
`na_values` includes the empty string), numeral fields load as numbers,
everything else as strings.  (The numeric subset modelled is the signed
integers; the repository's only numeric column holds integers.) -/
def parseField (cs : List Char) : Cell :=
  if cs = [] then Cell.na
  else
    match parseIntChars cs with
    | some n => Cell.num (n : ℚ)
    | none => Cell.str (String.mk cs)

/-- Fields of one CSV line. -/
def splitFields (cs : List Char) : List (List Char) := splitOnChar ',' cs

/-- One data row against the header: a row with more fields than the
header is a parse error (pandas `ParserError`); a short row is padded
with missing values. -/
def parseRow (ncols : ℕ) (fields : List (List Char)) : Except String Row :=
  if ncols < fields.length then
    Except.error "ParserError"
  else
    Except.ok (fields.map parseField ++ List.replicate (ncols - fields.length) Cell.na)

/-- All data rows, stopping at the first malformed one. -/
def parseRows (ncols : ℕ) : List (List Char) → Except String (List Row)
  | [] => Except.ok []
  | line :: rest =>
    match parseRow ncols (splitFields line) with
    | Except.error e => Except.error e
    | Except.ok r =>
      match parseRows ncols rest with
      | Except.error e => Except.error e
      | Except.ok rs => Except.ok (r :: rs)

/-- The loader body: reads the fixed CSV into a table.  A missing file
(`none`) or unreadable content fails with the corresponding pandas
exception, uncaught by the program.  Blank lines are skipped. -/
def load_data (file : Option String) : Except String Dataset :=
  match file with
  | none => Except.error "FileNotFoundError"
  | some content =>
    match (splitOnChar '\n' content.toList).filter (fun l => !(l.isEmpty)) with
    | [] => Except.error "EmptyDataError"
    | header :: dataLines =>
      let cols := (splitFields header).map String.mk
      match parseRows cols.length dataLines with
      | Except.error e => Except.error e
      | Except.ok rows => Except.ok ⟨cols, rows⟩

/-! ### The Streamlit cache (`@st.cache_data`, new.py line 10) -/

/-- One user session: the file behind the fixed path, the cache slot of
the memoized loader, and how many times the source was actually read. -/
structure Session where
  file : Option String
  cache : Option Dataset
  reads : ℕ
deriving DecidableEq

/-- A call of the cached `load_data`: a filled cache is returned without
touching the source; otherwise the source is read once and a successful
result is stored. -/
def callLoadData (s : Session) : Except String Dataset × Session :=
  match s.cache with
  | some d => (Except.ok d, s)
  | none =>
    match load_data s.file with
    | Except.ok d => (Except.ok d, { s with cache := some d, reads := s.reads + 1 })
    | Except.error e => (Except.error e, { s with reads := s.reads + 1 })

/-! ### Overview statistics (new.py lines 33-48) -/

/-- Missing-value count of one column, `df.isnull().sum()[c]`: pandas
counts exactly the NaN cells. -/
def isnullSum (d : Dataset) (c : String) : ℕ :=
  ((getCol d c).filter isNA).length

/-- Scan behind `df.duplicated()` with the default `keep=first`: a row
counts when an identical row was seen before it. -/
def dupScan : List Row → List Row → ℕ
  | _, [] => 0
  | seen, r :: rs => (if r ∈ seen then 1 else 0) + dupScan (r :: seen) rs

/-- Total duplicate rows, `df.duplicated().sum()`. -/
def duplicatedSum (d : Dataset) : ℕ := dupScan [] d.rows

/-- Numeric-dtype test for a column: every present cell is a number. -/
def isNumericCol (l : List Cell) : Bool := l.all (fun x => isNA x || isNum x)

/-- The columns `df.describe()` summarizes: the numeric ones. -/
def numericCols (d : Dataset) : List String :=
  d.cols.filter (fun c => isNumericCol (getCol d c))

/-! ### Unique values (EDA page, new.py lines 63-69) -/

/-- Order-of-first-appearance deduplication, the scan inside
`Series.unique`: a value already listed is skipped. -/
def uniqueAux : List Cell → List Cell → List Cell
  | _, [] => []
  | seen, c :: cs =>
    if c ∈ seen then uniqueAux seen cs
    else c :: uniqueAux (c :: seen) cs

/-- `Series.unique()`: distinct values in order of first appearance
(missing values included, as pandas keeps one NaN). -/
def uniqueList (l : List Cell) : List Cell := uniqueAux [] l

/-- The present (non-missing) cells of a column. -/
def presentVals (l : List Cell) : List Cell := l.filter (fun c => !(isNA c))

/-- `Series.nunique()`: number of distinct non-null values. -/
def nunique (l : List Cell) : ℕ := (uniqueList (presentVals l)).length

/-- Object-dtype test (`df[col].dtype == object`): the column holds at
least one string cell. -/
def isObjectCol (l : List Cell) : Bool :=
  l.any (fun c => match c with | Cell.str _ => true | _ => false)

/-- The EDA unique-value loop: for every object-dtype column, in column
order, its name, `unique()` list and `nunique()` count. -/
def edaUniqueBlocks (d : Dataset) : List (String × List Cell × ℕ) :=
  d.cols.filterMap (fun c =>
    if isObjectCol (getCol d c) then some (c, uniqueList (getCol d c), nunique (getCol d c))
    else none)

/-! ### Value counts and the pie routine (new.py lines 86-109, 131-147) -/

/-- Stable descending insertion by count (ties keep their relative
order), modelling the sort inside `Series.value_counts()`. -/
def insertDesc (x : Cell × ℕ) : List (Cell × ℕ) → List (Cell × ℕ)
  | [] => [x]
  | y :: ys => if x.2 ≤ y.2 then y :: insertDesc x ys else x :: y :: ys

/-- Stable sort by count, descending. -/
def sortDesc : List (Cell × ℕ) → List (Cell × ℕ)
  | [] => []
  | x :: xs => insertDesc x (sortDesc xs)

/-- `Series.value_counts()`: frequency of every distinct non-null value,
sorted by count descending (ties in order of first appearance). -/
def valueCounts (l : List Cell) : List (Cell × ℕ) :=
  sortDesc ((uniqueList (presentVals l)).map
    (fun v => (v, (l.filter (fun c => c = v)).length)))

/-- The percentage label `autopct='%1.1f%%'` prints for a wedge of size
`c` out of `total`, in tenths of a percent (one decimal place). -/
def pctTenths (c total : ℕ) : ℤ := round ((1000 * (c : ℚ)) / (total : ℚ))

/-- A rendered pie chart: wedges carry their value, count and one-decimal
percentage label; the explode tuple and shadow flag are kept as passed. -/
structure Pie where
  wedges : List (Cell × ℕ × ℤ)
  explode : Option (List ℚ)
  shadow : Bool
deriving DecidableEq

/-- Equality of loader or renderer results is decidable, so concrete
runs can be checked by evaluation. -/
instance {e a : Type} [DecidableEq e] [DecidableEq a] : DecidableEq (Except e a) := fun x y =>
  match x, y with
  | Except.ok u, Except.ok v =>
    if h : u = v then isTrue (by rw [h]) else isFalse (fun hh => by cases hh; exact h rfl)
  | Except.error u, Except.error v =>
    if h : u = v then isTrue (by rw [h]) else isFalse (fun hh => by cases hh; exact h rfl)
  | Except.ok _, Except.error _ => isFalse (fun hh => by cases hh)
  | Except.error _, Except.ok _ => isFalse (fun hh => by cases hh)

/-- Message of the matplotlib explode-length check. -/
def explodeLenMsg : String := "ValueError: explode must be of length x"

/-- The matplotlib pie routine: when an `explode` tuple is passed, its
length must equal the number of wedges, else `ValueError`; each wedge is
labelled with its rounded percentage of the total. -/
def plotPie (counts : List (Cell × ℕ)) (explode : Option (List ℚ)) (shadow : Bool) :
    Except String Pie :=
  let total := (counts.map Prod.snd).sum
  let wedges := counts.map (fun p => (p.1, p.2, pctTenths p.2 total))
  match explode with
  | some e =>
    if e.length = counts.length then Except.ok ⟨wedges, some e, shadow⟩
    else Except.error explodeLenMsg
  | none => Except.ok ⟨wedges, none, shadow⟩

/-- The explode tuple of the Company Size pie, `explode=(0.08, 0, 0)`. -/
def companySizeExplode : List ℚ := [8/100, 0, 0]

/-- The explode tuple of the Remote Friendly pie, `explode=(0.08, 0)`. -/
def remoteExplode : List ℚ := [8/100, 0]

/-- Company Size Distribution pie (new.py lines 86-101). -/
def companySizeChart (d : Dataset) : Except String Pie :=
  plotPie (valueCounts (getCol d "Company_Size")) (some companySizeExplode) true

/-- Job Title Distribution pie (new.py lines 103-109): `ax.pie` with no
explode and no shadow. -/
def jobTitleChart (d : Dataset) : Except String Pie :=
  plotPie (valueCounts (getCol d "Job_Title")) none false

/-- Remote Friendly Distribution pie (new.py lines 134-147). -/
def remotePieChart (d : Dataset) : Except String Pie :=
  plotPie (valueCounts (getCol d "Remote_Friendly")) (some remoteExplode) true

/-! ### Count plots and the salary trend line (new.py lines 111-129, 149-166) -/

/-- Rows of the dataset matching a value in each of two columns. -/
def matchingRows (d : Dataset) (cx : String) (xv : Cell) (ch : String) (hv : Cell) :
    List Row :=
  d.rows.filter (fun r =>
    decide (getCell r (colIdx d cx) = xv) && decide (getCell r (colIdx d ch) = hv))

/-- `sns.countplot(data=df, x=cx, hue=ch)`: the count of rows per
(x value, hue value) pair, for the pairs present (seaborn drops rows
whose x or hue is missing and draws no bar for an absent pair). -/
def countPlot (d : Dataset) (cx ch : String) : List (Cell × Cell × ℕ) :=
  (uniqueList (presentVals (getCol d cx))).flatMap (fun xv =>
    (uniqueList (presentVals (getCol d ch))).filterMap (fun hv =>
      let n := (matchingRows d cx xv ch hv).length
      if n = 0 then none else some (xv, hv, n)))

/-- Salary values of the rows of one (Industry, AI adoption level)
group, as plotted by the line chart. -/
def groupSalaries (d : Dataset) (iv lv : Cell) : List ℚ :=
  (matchingRows d "Industry" iv "AI_Adoption_Level" lv).filterMap
    (fun r => match getCell r (colIdx d "Salary_USD") with
      | Cell.num q => some q
      | _ => none)

/-- Arithmetic mean of a list of rationals. -/
def meanQ (l : List ℚ) : ℚ := l.sum / (l.length : ℚ)

/-- `sns.lineplot(x=Industry, y=Salary_USD, hue=AI_Adoption_Level)`
with the default estimator: the mean salary per (industry, adoption
level) pair, one point per pair present. -/
def salaryTrendPoints (d : Dataset) : List (Cell × Cell × ℚ) :=
  (uniqueList (presentVals (getCol d "Industry"))).flatMap (fun iv =>
    (uniqueList (presentVals (getCol d "AI_Adoption_Level"))).filterMap (fun lv =>
      let g := groupSalaries d iv lv
      if g = [] then none else some (iv, lv, meanQ g)))

/-! ### The rendered page (new.py lines 19-171) -/

/-- One rendered Streamlit element, in output order. -/
inductive Block where
  | pageTitle (s : String)
  | header (s : String)
  | subheader (s : String)
  | text (s : String)
  | table (rows : List Row)
  | shape (nrows ncols : ℕ)
  | missingTable (counts : List (String × ℕ))
  | duplicateCount (n : ℕ)
  | describeNumeric (cols : List String)
  | infoText (schema : List (String × ℕ))
  | uniqueBlock (col : String) (vals : List Cell) (n : ℕ)
  | separator
  | pieChart (title : String) (p : Pie)
  | countBar (title : String) (points : List (Cell × Cell × ℕ)) (rot : ℕ)
  | lineChart (title : String) (points : List (Cell × Cell × ℚ)) (band : Option ℚ)
deriving DecidableEq

/-- The three pages of the sidebar radio. -/
inductive Page where
  | overview
  | eda
  | visualizations
deriving DecidableEq

/-- The six options of the Visualizations selectbox. -/
inductive ChartOption where
  | companySize
  | jobTitle
  | aiAdoption
  | salaryTrends
  | remoteWork
  | jobGrowth
deriving DecidableEq

/-- Widget state of one session: the page radio, the chart selectbox and
the raw-data checkbox.  The script reads it and never writes it. -/
structure AppState where
  page : Page
  chart : ChartOption
  showRaw : Bool
deriving DecidableEq

/-- The Overview page (new.py lines 33-48). -/
def renderOverview (d : Dataset) : List Block :=
  [Block.header "Dataset Overview",
   Block.subheader "Data Snapshot",
   Block.table (d.rows.take 5),
   Block.subheader "Dataset Shape",
   Block.shape d.rows.length d.cols.length,
   Block.subheader "Missing and Duplicate Values",
   Block.missingTable (d.cols.map (fun c => (c, isnullSum d c))),
   Block.duplicateCount (duplicatedSum d),
   Block.subheader "Descriptive Statistics (Numerical)",
   Block.describeNumeric (numericCols d)]

/-- The EDA page (new.py lines 53-69): `df.info()` then the unique-value
report, a separator after each categorical column. -/
def renderEDA (d : Dataset) : List Block :=
  [Block.header "Exploratory Data Analysis (EDA)",
   Block.subheader "DataFrame Info",
   Block.infoText (d.cols.map (fun c => (c, (presentVals (getCol d c)).length))),
   Block.subheader "Unique Values in Categorical Columns"] ++
  (edaUniqueBlocks d).flatMap
    (fun b => [Block.uniqueBlock b.1 b.2.1 b.2.2, Block.separator])

/-- The chart branch of the Visualizations page (new.py lines 86-166);
an uncaught matplotlib error aborts the script run. -/
def renderViz (d : Dataset) : ChartOption → Except String (List Block)
  | ChartOption.companySize =>
    match companySizeChart d with
    | Except.error e => Except.error e
    | Except.ok p =>
      Except.ok [Block.subheader "Distribution of Company Size (Pie Chart)",
                 Block.pieChart "Distribution of Company Size" p]
  | ChartOption.jobTitle =>
    match jobTitleChart d with
    | Except.error e => Except.error e
    | Except.ok p =>
      Except.ok [Block.subheader "Distribution of Job Titles (Pie Chart)",
                 Block.pieChart "Distribution of Job Titles" p]
  | ChartOption.aiAdoption =>
    Except.ok [Block.subheader "AI Adoption Level Across Different Industries",
               Block.countBar "AI Adoption Level Across Different Industries"
                 (countPlot d "AI_Adoption_Level" "Industry") 45]
  | ChartOption.salaryTrends =>
    Except.ok [Block.subheader "Salary Across Different Industries with AI Adoption Level",
               Block.lineChart "Salary Trends by Industry" (salaryTrendPoints d) none]
  | ChartOption.remoteWork =>
    match remotePieChart d with
    | Except.error e => Except.error e
    | Except.ok p =>
      Except.ok [Block.subheader "Remote Work Analysis",
                 Block.pieChart "Remote Friendly Distribution" p,
                 Block.countBar "Remote Work Availability by Industry"
                   (countPlot d "Industry" "Remote_Friendly") 70]
  | ChartOption.jobGrowth =>
    Except.ok [Block.subheader "Job Growth Projection Analysis",
               Block.countBar "Job Growth Projection Across Different Industries"
                 (countPlot d "Job_Growth_Projection" "Industry") 45]

/-- The page dispatch (new.py lines 33, 53, 74). -/
def renderPage (d : Dataset) (s : AppState) : Except String (List Block) :=
  match s.page with
  | Page.overview => Except.ok (renderOverview d)
  | Page.eda => Except.ok (renderEDA d)
  | Page.visualizations =>
    match renderViz d s.chart with
    | Except.error e => Except.error e
    | Except.ok bs => Except.ok (Block.header "Visualizations" :: bs)

/-- One top-to-bottom script run: load the data, render the title, the
selected page, and (when the checkbox is on) the raw table; the widget
state is returned untouched, as the script never writes it.  Any
uncaught exception aborts the run. -/
def runScript (file : Option String) (s : AppState) :
    Except String (List Block × AppState) :=
  match load_data file with
  | Except.error e => Except.error e
  | Except.ok d =>
    match renderPage d s with
    | Except.error e => Except.error e
    | Except.ok blocks =>
      Except.ok (Block.pageTitle "AI-Powered Job Market Insights" ::
        Block.text "This web app provides interactive insights into a synthetic snapshot of the modern job market." ::
        blocks ++
        (if s.showRaw then [Block.subheader "Raw Dataset", Block.table d.rows] else []), s)

/-! ### Independent brute-force scans (the spec's reference counts) -/

/-- Brute-force missing-value scan from the spec's words: walk the
column and count every entry that is null or the empty string. -/
def bruteMissing : List Cell → ℕ
  | [] => 0
  | Cell.na :: cs => bruteMissing cs + 1
  | Cell.str s :: cs => bruteMissing cs + (if s = "" then 1 else 0)
  | Cell.num _ :: cs => bruteMissing cs

/-- Brute-force pairwise test: row `i` has a fully identical row among
the rows before it. -/
def hasEarlierDup (rows : List Row) (i : ℕ) : Bool :=
  (rows.take i).any (fun r => decide (r = rows.getD i []))

/-- Brute-force duplicate count from the spec's words: the number of
row positions whose row also occurs earlier, so each group of `k`
identical rows contributes `k - 1` (no double counting). -/
def bruteDup (rows : List Row) : ℕ :=
  ((List.range rows.length).filter (hasEarlierDup rows)).length

/-- No cell of the table is the empty string (true of every table
`load_data` produces: empty CSV fields load as missing). -/
def noEmptyStr (d : Dataset) : Prop :=
  ∀ r ∈ d.rows, ∀ c ∈ r, c ≠ Cell.str ""

instance : DecidablePred noEmptyStr := fun d => by
  unfold noEmptyStr; infer_instance

/-! ### Concrete datasets and files used as test inputs -/

/-- A one-row table whose Company Size column has a single value. -/
def dsOneSize : Dataset := ⟨["Company_Size"], [[Cell.str "Small"]]⟩

/-- A table whose Job Title column has a single distinct value. -/
def dsOneTitle : Dataset :=
  ⟨["Job_Title"], [[Cell.str "AI Engineer"], [Cell.str "AI Engineer"]]⟩

/-- The spec's two-category scenario: a column with values
Small, Small, Large (used both as Job Title and as Company Size). -/
def dsTwoCats : Dataset :=
  ⟨["Job_Title", "Company_Size"],
   [[Cell.str "Small", Cell.str "Small"],
    [Cell.str "Small", Cell.str "Small"],
    [Cell.str "Large", Cell.str "Large"]]⟩

/-- The spec's salary-trend scenario: rows (Tech, 100000, High),
(Tech, 120000, High), (Finance, 90000, Low). -/
def dsSalary : Dataset :=
  ⟨["Industry", "Salary_USD", "AI_Adoption_Level"],
   [[Cell.str "Tech", Cell.num 100000, Cell.str "High"],
    [Cell.str "Tech", Cell.num 120000, Cell.str "High"],
    [Cell.str "Finance", Cell.num 90000, Cell.str "Low"]]⟩

/-- A small table with the full schema: three company sizes, two
remote-friendly values. -/
def dsFull : Dataset :=
  ⟨["Job_Title", "Industry", "Company_Size", "AI_Adoption_Level", "Automation_Risk",
    "Required_Skills", "Salary_USD", "Remote_Friendly", "Job_Growth_Projection"],
   [[Cell.str "AI Engineer", Cell.str "Tech", Cell.str "Small", Cell.str "High",
     Cell.str "Low", Cell.str "Python", Cell.num 100000, Cell.str "Yes", Cell.str "Growth"],
    [Cell.str "Data Analyst", Cell.str "Finance", Cell.str "Medium", Cell.str "Low",
     Cell.str "High", Cell.str "SQL", Cell.num 90000, Cell.str "No", Cell.str "Decline"],
    [Cell.str "Manager", Cell.str "Retail", Cell.str "Large", Cell.str "Medium",
     Cell.str "Medium", Cell.str "Excel", Cell.num 80000, Cell.str "Yes", Cell.str "Stable"]]⟩

/-- A tiny well-formed CSV file, with one empty field. -/
def csvSmall : String := "A,B\nx,\ny,2"

/-- The table `load_data` produces from `csvSmall`. -/
def dsSmall : Dataset :=
  ⟨["A", "B"], [[Cell.str "x", Cell.na], [Cell.str "y", Cell.num 2]]⟩

/-- The block list the app renders for `dsSmall` on the Overview page
with the raw-data toggle off (a concrete expected output). -/
def ovSmallBlocks : List Block :=
  [Block.pageTitle "AI-Powered Job Market Insights",
   Block.text "This web app provides interactive insights into a synthetic snapshot of the modern job market.",
   Block.header "Dataset Overview",
   Block.subheader "Data Snapshot",
   Block.table [[Cell.str "x", Cell.na], [Cell.str "y", Cell.num 2]],
   Block.subheader "Dataset Shape",
   Block.shape 2 2,
   Block.subheader "Missing and Duplicate Values",
   Block.missingTable [("A", 0), ("B", 1)],
   Block.duplicateCount 0,
   Block.subheader "Descriptive Statistics (Numerical)",
   Block.describeNumeric ["B"]]

/-- Position of the first occurrence of a value in a column (the column
length when absent), used to state order of first appearance. -/
def firstIdx (l : List Cell) (x : Cell) : ℕ :=
  match l with
  | [] => 0
  | c :: cs => if c = x then 0 else firstIdx cs x + 1

/-! ## Lemmas -/

theorem mem_uniqueAux {x : Cell} :
    ∀ (l seen : List Cell), x ∈ uniqueAux seen l ↔ x ∈ l ∧ x ∉ seen := by
  intro l
  induction l with
  | nil => intro seen; simp [uniqueAux]
  | cons c cs ih =>
    intro seen
    by_cases h : c ∈ seen
    · rw [uniqueAux, if_pos h, ih]
      constructor
      · rintro ⟨h1, h2⟩; exact ⟨List.mem_cons_of_mem c h1, h2⟩
      · rintro ⟨h1, h2⟩
        rcases List.mem_cons.mp h1 with h3 | h3
        · exact absurd (h3 ▸ h) h2
        · exact ⟨h3, h2⟩
    · rw [uniqueAux, if_neg h]
      constructor
      · intro h1
        rcases List.mem_cons.mp h1 with h3 | h3
        · exact ⟨h3 ▸ List.mem_cons_self c cs, h3 ▸ h⟩
        · rcases (ih (c :: seen)).mp h3 with ⟨h4, h5⟩
          refine ⟨List.mem_cons_of_mem c h4, fun h6 => h5 (List.mem_cons_of_mem c h6)⟩
      · rintro ⟨h1, h2⟩
        rcases List.mem_cons.mp h1 with h3 | h3
        · exact h3 ▸ List.mem_cons_self c _
        · by_cases h4 : x = c
          · exact h4 ▸ List.mem_cons_self c _
          · exact List.mem_cons_of_mem c ((ih (c :: seen)).mpr
              ⟨h3, fun h5 => (List.mem_cons.mp h5).elim h4 h2⟩)

theorem mem_uniqueList {x : Cell} {l : List Cell} : x ∈ uniqueList l ↔ x ∈ l := by
  rw [uniqueList, mem_uniqueAux]; simp

theorem uniqueAux_nodup : ∀ (l seen : List Cell), (uniqueAux seen l).Nodup := by
  intro l
  induction l with
  | nil => intro seen; exact List.nodup_nil
  | cons c cs ih =>
    intro seen
    by_cases h : c ∈ seen
    · rw [uniqueAux, if_pos h]; exact ih seen
    · rw [uniqueAux, if_neg h]
      refine List.nodup_cons.mpr ⟨fun hc => ?_, ih (c :: seen)⟩
      exact ((mem_uniqueAux cs (c :: seen)).mp hc).2 (List.mem_cons_self c seen)

theorem uniqueList_nodup (l : List Cell) : (uniqueList l).Nodup := uniqueAux_nodup l []

theorem uniqueList_toFinset (l : List Cell) : (uniqueList l).toFinset = l.toFinset := by
  ext x; simp [List.mem_toFinset, mem_uniqueList]

theorem uniqueList_length (l : List Cell) : (uniqueList l).length = l.toFinset.card := by
  rw [← uniqueList_toFinset, List.card_toFinset, (uniqueList_nodup l).dedup]

theorem firstIdx_cons_self (c : Cell) (cs : List Cell) : firstIdx (c :: cs) c = 0 := by
  simp [firstIdx]

theorem firstIdx_cons_ne {x c : Cell} (cs : List Cell) (h : x ≠ c) :
    firstIdx (c :: cs) x = firstIdx cs x + 1 := by
  simp [firstIdx, (Ne.symm h)]

theorem uniqueAux_pairwise_firstIdx :
    ∀ (l seen : List Cell),
      (uniqueAux seen l).Pairwise (fun a b => firstIdx l a < firstIdx l b) := by
  intro l
  induction l with
  | nil => intro seen; exact List.Pairwise.nil
  | cons c cs ih =>
    intro seen
    by_cases h : c ∈ seen
    · rw [uniqueAux, if_pos h]
      refine (ih seen).imp_of_mem ?_
      intro a b ha hb hab
      have hane : a ≠ c := fun he => ((mem_uniqueAux cs seen).mp ha).2 (he ▸ h)
      have hbne : b ≠ c := fun he => ((mem_uniqueAux cs seen).mp hb).2 (he ▸ h)
      rw [firstIdx_cons_ne cs hane, firstIdx_cons_ne cs hbne]
      omega
    · rw [uniqueAux, if_neg h]
      refine List.pairwise_cons.mpr ⟨?_, ?_⟩
      · intro b hb
        have hbne : b ≠ c := fun he =>
          ((mem_uniqueAux cs (c :: seen)).mp hb).2 (he ▸ List.mem_cons_self c seen)
        rw [firstIdx_cons_self, firstIdx_cons_ne cs hbne]
        omega
      · refine (ih (c :: seen)).imp_of_mem ?_
        intro a b ha hb hab
        have hane : a ≠ c := fun he =>
          ((mem_uniqueAux cs (c :: seen)).mp ha).2 (he ▸ List.mem_cons_self c seen)
        have hbne : b ≠ c := fun he =>
          ((mem_uniqueAux cs (c :: seen)).mp hb).2 (he ▸ List.mem_cons_self c seen)
        rw [firstIdx_cons_ne cs hane, firstIdx_cons_ne cs hbne]
        omega

theorem uniqueList_pairwise_firstIdx (l : List Cell) :
    (uniqueList l).Pairwise (fun a b => firstIdx l a < firstIdx l b) :=
  uniqueAux_pairwise_firstIdx l []

theorem filter_isNA_eq_bruteMissing :
    ∀ l : List Cell, (∀ x ∈ l, x ≠ Cell.str "") →
      (l.filter isNA).length = bruteMissing l := by
  intro l
  induction l with
  | nil => intro _; rfl
  | cons c cs ih =>
    intro h
    have hcs : ∀ x ∈ cs, x ≠ Cell.str "" := fun x hx => h x (List.mem_cons_of_mem c hx)
    cases c with
    | na => simp [bruteMissing, isNA, ih hcs]
    | str s =>
      have hs : s ≠ "" := by
        intro he
        exact h (Cell.str s) (List.mem_cons_self _ _) (by rw [he])
      simp [bruteMissing, isNA, ih hcs, hs]
    | num q => simp [bruteMissing, isNA, ih hcs]

theorem parseField_ne_empty (cs : List Char) : parseField cs ≠ Cell.str "" := by
  rw [parseField]
  by_cases h : cs = []
  · rw [if_pos h]; intro he; cases he
  · rw [if_neg h]
    cases hp : parseIntChars cs with
    | some n => intro he; cases he
    | none =>
      intro he
      have hd : cs = [] := congrArg String.data (Cell.str.inj he)
      exact h hd

theorem parseRow_no_empty {ncols : ℕ} {fields : List (List Char)} {r : Row}
    (h : parseRow ncols fields = Except.ok r) : ∀ c ∈ r, c ≠ Cell.str "" := by
  rw [parseRow] at h
  by_cases hl : ncols < fields.length
  · rw [if_pos hl] at h; cases h
  · rw [if_neg hl] at h
    cases h
    intro c hc
    rcases List.mem_append.mp hc with hm | hm
    · rcases List.mem_map.mp hm with ⟨f, _, hf⟩
      exact hf ▸ parseField_ne_empty f
    · rw [List.eq_of_mem_replicate hm]
      intro he; cases he

theorem parseRows_no_empty {ncols : ℕ} :
    ∀ {lines : List (List Char)} {rows : List Row},
      parseRows ncols lines = Except.ok rows →
      ∀ r ∈ rows, ∀ c ∈ r, c ≠ Cell.str "" := by
  intro lines
  induction lines with
  | nil =>
    intro rows h
    cases h
    intro r hr; cases hr
  | cons line rest ih =>
    intro rows h
    rw [parseRows] at h
    cases hp : parseRow ncols (splitFields line) with
    | error e => rw [hp] at h; cases h
    | ok row =>
      rw [hp] at h
      cases hq : parseRows ncols rest with
      | error e => rw [hq] at h; cases h
      | ok rs =>
        rw [hq] at h
        cases h
        intro r hr
        rcases List.mem_cons.mp hr with he | he
        · exact he ▸ parseRow_no_empty hp
        · exact ih hq r he

theorem load_data_noEmptyStr {f : Option String} {d : Dataset}
    (h : load_data f = Except.ok d) : noEmptyStr d := by
  rw [load_data.eq_def] at h
  cases f with
  | none => cases h
  | some content =>
    simp only at h
    cases hs : (splitOnChar '\n' content.toList).filter (fun l => !(l.isEmpty)) with
    | nil => rw [hs] at h; cases h
    | cons header dataLines =>
      rw [hs] at h
      dsimp only at h
      cases hp : parseRows ((splitFields header).map String.mk).length dataLines with
      | error e => rw [hp] at h; cases h
      | ok rows =>
        rw [hp] at h
        cases h
        exact fun r hr => parseRows_no_empty hp r hr

theorem getCell_no_empty {r : Row} (h : ∀ c ∈ r, c ≠ Cell.str "") (i : ℕ) :
    getCell r i ≠ Cell.str "" := by
  rw [getCell]
  rcases Nat.lt_or_ge i r.length with hi | hi
  · rw [List.getD_eq_getElem r Cell.na hi]
    exact h _ (List.getElem_mem hi)
  · rw [List.getD_eq_default r Cell.na hi]
    intro he; cases he

theorem dupScan_eq_filter :
    ∀ (l seen : List Row),
      dupScan seen l =
        ((List.range l.length).filter
          (fun i => hasEarlierDup l i || decide (l.getD i [] ∈ seen))).length := by
  intro l
  induction l with
  | nil => intro seen; rfl
  | cons r rs ih =>
    intro seen
    rw [dupScan, List.length_cons, List.range_succ_eq_map, List.filter_cons]
    have h0 : (hasEarlierDup (r :: rs) 0 || decide ((r :: rs).getD 0 [] ∈ seen)) =
        decide (r ∈ seen) := by
      simp [hasEarlierDup]
    rw [h0, List.filter_map]
    have hcong :
        List.filter
            ((fun i => hasEarlierDup (r :: rs) i || decide ((r :: rs).getD i [] ∈ seen)) ∘ Nat.succ)
            (List.range rs.length) =
        List.filter (fun i => hasEarlierDup rs i || decide (rs.getD i [] ∈ r :: seen))
            (List.range rs.length) := by
      refine List.filter_congr ?_
      intro i _
      show (hasEarlierDup (r :: rs) (i + 1) || decide ((r :: rs).getD (i + 1) [] ∈ seen)) =
        (hasEarlierDup rs i || decide (rs.getD i [] ∈ r :: seen))
      rw [Bool.eq_iff_iff]
      simp only [hasEarlierDup, Bool.or_eq_true, List.any_eq_true, decide_eq_true_eq,
        List.take_succ_cons, List.getD_cons_succ]
      constructor
      · rintro (⟨x, hx, he⟩ | hm)
        · rcases List.mem_cons.mp hx with hh | hh
          · right; exact List.mem_cons.mpr (Or.inl (by rw [← he, hh]))
          · left; exact ⟨x, hh, he⟩
        · right; exact List.mem_cons.mpr (Or.inr hm)
      · rintro (⟨x, hx, he⟩ | hm)
        · left; exact ⟨x, List.mem_cons_of_mem r hx, he⟩
        · rcases List.mem_cons.mp hm with hh | hh
          · left; exact ⟨r, List.mem_cons_self r _, hh.symm⟩
          · right; exact hh
    rw [hcong]
    by_cases hr : r ∈ seen
    · rw [if_pos hr, if_pos (decide_eq_true hr), List.length_cons, List.length_map,
        ← ih (r :: seen)]
      omega
    · rw [if_neg hr, if_neg (by simpa using hr), List.length_map, ← ih (r :: seen)]
      omega

/-! ## Claim C3: duplicate-row count -/

/-- C3.  The total duplicate-row count shown by the Overview view
(`df.duplicated().sum()`, embedded as `duplicatedSum`) equals the
brute-force pairwise count `bruteDup`: the number of row positions
whose row is fully identical to some earlier row, so each group of
identical rows is counted without its first occurrence and without
double counting. -/
theorem overview_duplicate_count_correct (d : Dataset) :
    duplicatedSum d = bruteDup d.rows := by
  rw [duplicatedSum, dupScan_eq_filter, bruteDup]
  congr 1
  refine List.filter_congr ?_
  intro i _
  simp

/-- Witness for C3 (the theorem's binder is a plain dataset, but a
concrete check documents the semantics: in x, x, y, x the second and
fourth rows count). -/
theorem overview_duplicate_count_correct_witness :
    duplicatedSum ⟨["A"], [[Cell.str "x"], [Cell.str "x"], [Cell.str "y"], [Cell.str "x"]]⟩ =
      bruteDup [[Cell.str "x"], [Cell.str "x"], [Cell.str "y"], [Cell.str "x"]] ∧
    duplicatedSum ⟨["A"], [[Cell.str "x"], [Cell.str "x"], [Cell.str "y"], [Cell.str "x"]]⟩ = 2 :=
  ⟨overview_duplicate_count_correct ⟨["A"], [[Cell.str "x"], [Cell.str "x"], [Cell.str "y"], [Cell.str "x"]]⟩,
   by decide⟩

/-! ## Claim C2: missing-value counts -/

/-- C2.  For every column of a loaded dataset, the missing-value count
shown by the Overview view (`df.isnull().sum()`, embedded as
`isnullSum`) equals the number of null-or-empty entries of that column
counted by the independent brute-force scan `bruteMissing`. -/
theorem overview_missing_counts_correct (f : Option String) (d : Dataset)
    (h : load_data f = Except.ok d) (c : String) :
    isnullSum d c = bruteMissing (getCol d c) := by
  rw [isnullSum]
  refine filter_isNA_eq_bruteMissing (getCol d c) ?_
  intro x hx
  rcases List.mem_map.mp hx with ⟨r, hr, hcell⟩
  exact hcell ▸ getCell_no_empty (load_data_noEmptyStr h r hr) (colIdx d c)

/-- Witness for C2 on the concrete file `csvSmall`: its B column has
exactly one missing entry, counted equally by both scans. -/
theorem overview_missing_counts_correct_witness :
    isnullSum dsSmall "B" = bruteMissing (getCol dsSmall "B") ∧
    isnullSum dsSmall "B" = 1 :=
  ⟨overview_missing_counts_correct (some csvSmall) dsSmall rfl "B", by decide⟩

/-! ## Claim C9: a failing load is fatal and surfaced -/

/-- C9.  When the dataset file is missing or malformed, `load_data`
fails, the failure aborts the script run for every widget state — no
view renders — and the error value is the run's result (surfaced, not
swallowed: the program installs no handler). -/
theorem load_failure_fatal (f : Option String) (e : String)
    (h : load_data f = Except.error e) (s : AppState) :
    runScript f s = Except.error e := by
  rw [runScript, h]

/-- Witness for C9: with the file missing, every page errors with the
loader's exception. -/
theorem load_failure_fatal_witness :
    runScript none ⟨Page.overview, ChartOption.companySize, false⟩ =
      Except.error "FileNotFoundError" :=
  load_failure_fatal none "FileNotFoundError" rfl _

/-! ## Claim C4: memoized loading -/

/-- C4.  Within one session, a first successful call of the cached
loader fills the cache after a single source read, and a second call
returns the identical table without reading the source again (the
session, its read count included, is unchanged). -/
theorem load_data_memoized (f : Option String) (d : Dataset) (s1 : Session)
    (h : callLoadData ⟨f, none, 0⟩ = (Except.ok d, s1)) :
    callLoadData s1 = (Except.ok d, s1) ∧ s1.reads = 1 ∧ s1.cache = some d := by
  rw [callLoadData] at h
  dsimp only at h
  cases hl : load_data f with
  | error e => rw [hl] at h; cases h
  | ok d0 =>
    rw [hl] at h
    dsimp only at h
    cases h
    exact ⟨rfl, rfl, rfl⟩

/-- Witness for C4 on the concrete file `csvSmall`. -/
theorem load_data_memoized_witness :
    callLoadData ⟨some csvSmall, some dsSmall, 1⟩ =
      (Except.ok dsSmall, ⟨some csvSmall, some dsSmall, 1⟩) ∧
    (⟨some csvSmall, some dsSmall, 1⟩ : Session).reads = 1 ∧
    (⟨some csvSmall, some dsSmall, 1⟩ : Session).cache = some dsSmall :=
  load_data_memoized (some csvSmall) dsSmall ⟨some csvSmall, some dsSmall, 1⟩ rfl

/-! ## Claim C6: distinct values of categorical columns -/

theorem nunique_eq_card (l : List Cell) : nunique l = (presentVals l).toFinset.card := by
  rw [nunique, uniqueList_length]

/-- C6.  Every block of the EDA unique-value report is correct: the
reported count equals the size of the set of values observed (present)
in that column, the listed values are distinct, and they are listed in
order of first appearance in the column — a deterministic, reproducible
order. -/
theorem eda_unique_values_correct (d : Dataset) (c : String) (vals : List Cell) (n : ℕ)
    (h : (c, vals, n) ∈ edaUniqueBlocks d) :
    n = (presentVals (getCol d c)).toFinset.card ∧
    vals.Nodup ∧
    vals.Pairwise (fun a b => firstIdx (getCol d c) a < firstIdx (getCol d c) b) := by
  rw [edaUniqueBlocks] at h
  rcases List.mem_filterMap.mp h with ⟨c0, _, heq⟩
  by_cases hobj : isObjectCol (getCol d c0)
  · rw [if_pos hobj] at heq
    injection heq with heq2
    simp only [Prod.mk.injEq] at heq2
    obtain ⟨rfl, rfl, rfl⟩ := heq2
    exact ⟨nunique_eq_card (getCol d c0), uniqueList_nodup (getCol d c0),
      uniqueList_pairwise_firstIdx (getCol d c0)⟩
  · rw [if_neg hobj] at heq
    cases heq

/-- Witness for C6 on the Industry column of `dsFull`: three distinct
values, listed in first-appearance order. -/
theorem eda_unique_values_correct_witness :
    (3 : ℕ) = (presentVals (getCol dsFull "Industry")).toFinset.card ∧
    ([Cell.str "Tech", Cell.str "Finance", Cell.str "Retail"] : List Cell).Nodup ∧
    ([Cell.str "Tech", Cell.str "Finance", Cell.str "Retail"] : List Cell).Pairwise
      (fun a b => firstIdx (getCol dsFull "Industry") a < firstIdx (getCol dsFull "Industry") b) :=
  eda_unique_values_correct dsFull "Industry"
    [Cell.str "Tech", Cell.str "Finance", Cell.str "Retail"] 3 (by decide)

/-! ## Claim C10: explode tuples match wedge counts -/

theorem insertDesc_length (x : Cell × ℕ) :
    ∀ l : List (Cell × ℕ), (insertDesc x l).length = l.length + 1 := by
  intro l
  induction l with
  | nil => rfl
  | cons y ys ih =>
    rw [insertDesc]
    by_cases h : x.2 ≤ y.2
    · rw [if_pos h, List.length_cons, ih, List.length_cons]
    · rw [if_neg h, List.length_cons, List.length_cons]

theorem sortDesc_length : ∀ l : List (Cell × ℕ), (sortDesc l).length = l.length := by
  intro l
  induction l with
  | nil => rfl
  | cons x xs ih => rw [sortDesc, insertDesc_length, ih, List.length_cons]

theorem valueCounts_length (l : List Cell) : (valueCounts l).length = nunique l := by
  rw [valueCounts, sortDesc_length, List.length_map, nunique]

theorem plotPie_ok (sh : Bool) {counts : List (Cell × ℕ)} {e : List ℚ}
    (h : e.length = counts.length) :
    ∃ p : Pie, plotPie counts (some e) sh = Except.ok p ∧ p.wedges.length = counts.length := by
  refine ⟨⟨counts.map (fun q => (q.1, q.2, pctTenths q.2 ((counts.map Prod.snd).sum))),
    some e, sh⟩, ?_, ?_⟩
  · simp [plotPie, h]
  · exact List.length_map counts _

/-- C10.  The Company Size pie passes a fixed explode tuple of length 3
and the Remote Friendly pie one of length 2; consequently, whenever the
Company Size column has exactly three distinct values (respectively the
Remote Friendly column exactly two), the tuple length matches the wedge
count and the chart renders without reaching an error branch. -/
theorem pie_explode_matches_wedges (d : Dataset) :
    companySizeExplode.length = 3 ∧ remoteExplode.length = 2 ∧
    (nunique (getCol d "Company_Size") = 3 →
      ∃ p, companySizeChart d = Except.ok p ∧ p.wedges.length = 3) ∧
    (nunique (getCol d "Remote_Friendly") = 2 →
      ∃ p, remotePieChart d = Except.ok p ∧ p.wedges.length = 2) := by
  refine ⟨rfl, rfl, ?_, ?_⟩
  · intro h
    have hlen : companySizeExplode.length = (valueCounts (getCol d "Company_Size")).length := by
      rw [valueCounts_length, h]; rfl
    rcases plotPie_ok true hlen with ⟨p, hp, hw⟩
    refine ⟨p, ?_, ?_⟩
    · rw [companySizeChart, hp]
    · rw [hw, valueCounts_length, h]
  · intro h
    have hlen : remoteExplode.length = (valueCounts (getCol d "Remote_Friendly")).length := by
      rw [valueCounts_length, h]; rfl
    rcases plotPie_ok true hlen with ⟨p, hp, hw⟩
    refine ⟨p, ?_, ?_⟩
    · rw [remotePieChart, hp]
    · rw [hw, valueCounts_length, h]

/-- Witness for C10 on `dsFull`, whose Company Size column has three
distinct values and whose Remote Friendly column has two. -/
theorem pie_explode_matches_wedges_witness :
    (∃ p, companySizeChart dsFull = Except.ok p ∧ p.wedges.length = 3) ∧
    (∃ p, remotePieChart dsFull = Except.ok p ∧ p.wedges.length = 2) :=
  ⟨(pie_explode_matches_wedges dsFull).2.2.1 (by decide),
   (pie_explode_matches_wedges dsFull).2.2.2 (by decide)⟩

/-! ## Claim C1: zero-variance categorical fields -/

theorem pctTenths_self {k : ℕ} (hk : k ≠ 0) : pctTenths k k = 1000 := by
  have hq : (k : ℚ) ≠ 0 := Nat.cast_ne_zero.mpr hk
  rw [pctTenths, mul_div_assoc, div_self hq, mul_one]
  norm_num [round_eq]

/-- C1 counterexample.  On a dataset whose Company Size column has a
single distinct value (zero variance), selecting the Company Size
Distribution chart does NOT render a one-wedge chart: the fixed explode
tuple has length 3 against 1 wedge and matplotlib raises, so the claim
fails as stated. -/
theorem single_category_pie_errors :
    nunique (getCol dsOneSize "Company_Size") = 1 ∧
    renderViz dsOneSize ChartOption.companySize = Except.error explodeLenMsg :=
  ⟨by decide, rfl⟩

/-- C1 amended.  A chart without a fixed explode tuple does satisfy the
edge case: when the Job Title column has a single distinct value, the
Job Title Distribution pie renders a minimal valid chart with exactly
one wedge, labelled 100.0 percent, and reaches no error branch. -/
theorem single_category_pie_renders_without_explode (d : Dataset)
    (h : nunique (getCol d "Job_Title") = 1) :
    ∃ v k, 0 < k ∧
      renderViz d ChartOption.jobTitle =
        Except.ok [Block.subheader "Distribution of Job Titles (Pie Chart)",
          Block.pieChart "Distribution of Job Titles" ⟨[(v, k, 1000)], none, false⟩] := by
  rw [nunique] at h
  rcases List.length_eq_one.mp h with ⟨v, hv⟩
  have hvmem : v ∈ getCol d "Job_Title" := by
    have : v ∈ uniqueList (presentVals (getCol d "Job_Title")) := by
      rw [hv]; exact List.mem_cons_self v []
    exact List.mem_of_mem_filter (mem_uniqueList.mp this)
  have hkpos : 0 < ((getCol d "Job_Title").filter (fun c => c = v)).length := by
    refine List.length_pos.mpr ?_
    intro hnil
    have : v ∈ (getCol d "Job_Title").filter (fun c => c = v) :=
      List.mem_filter.mpr ⟨hvmem, by simp⟩
    rw [hnil] at this
    cases this
  refine ⟨v, ((getCol d "Job_Title").filter (fun c => c = v)).length, hkpos, ?_⟩
  have hvc : valueCounts (getCol d "Job_Title") =
      [(v, ((getCol d "Job_Title").filter (fun c => c = v)).length)] := by
    rw [valueCounts, hv]
    rfl
  have hchart : jobTitleChart d =
      Except.ok ⟨[(v, ((getCol d "Job_Title").filter (fun c => c = v)).length, 1000)],
        none, false⟩ := by
    rw [jobTitleChart, hvc, plotPie]
    simp only [List.map_cons, List.map_nil, List.sum_cons, List.sum_nil, Nat.add_zero]
    rw [pctTenths_self (Nat.pos_iff_ne_zero.mp hkpos)]
  rw [renderViz, hchart]

/-- Witness for the amended C1 on `dsOneTitle`, whose Job Title column
holds one distinct value. -/
theorem single_category_pie_renders_witness :
    ∃ v k, 0 < k ∧
      renderViz dsOneTitle ChartOption.jobTitle =
        Except.ok [Block.subheader "Distribution of Job Titles (Pie Chart)",
          Block.pieChart "Distribution of Job Titles" ⟨[(v, k, 1000)], none, false⟩] :=
  single_category_pie_renders_without_explode dsOneTitle (by decide)

/-! ## Claim C7: pie percentage labels -/

/-- C7 counterexample.  On the spec's scenario — a Company Size column
with values Small, Small, Large — the Company Size Distribution pie
does not show two labelled categories: the fixed explode tuple has
length 3 against 2 wedges, and the rendering raises instead. -/
theorem pie_labels_scenario_errors :
    getCol dsTwoCats "Company_Size" = [Cell.str "Small", Cell.str "Small", Cell.str "Large"] ∧
    renderViz dsTwoCats ChartOption.companySize = Except.error explodeLenMsg :=
  ⟨rfl, rfl⟩

/-- C7 amended.  The pie routine does label each wedge with its
frequency as a percentage of the total rounded to one decimal, and on
the values Small, Small, Large the explode-free Job Title Distribution
pie shows exactly the two categories labelled 66.7 and 33.3 percent
(667 and 333 tenths). -/
theorem pie_labels_one_decimal :
    getCol dsTwoCats "Job_Title" = [Cell.str "Small", Cell.str "Small", Cell.str "Large"] ∧
    pctTenths 2 3 = 667 ∧ pctTenths 1 3 = 333 ∧
    renderViz dsTwoCats ChartOption.jobTitle =
      Except.ok [Block.subheader "Distribution of Job Titles (Pie Chart)",
        Block.pieChart "Distribution of Job Titles"
          ⟨[(Cell.str "Small", 2, 667), (Cell.str "Large", 1, 333)], none, false⟩] := by
  have hp2 : pctTenths 2 3 = 667 := by norm_num [pctTenths, round_eq]
  have hp1 : pctTenths 1 3 = 333 := by norm_num [pctTenths, round_eq]
  have h0 : renderViz dsTwoCats ChartOption.jobTitle =
      Except.ok [Block.subheader "Distribution of Job Titles (Pie Chart)",
        Block.pieChart "Distribution of Job Titles"
          ⟨[(Cell.str "Small", 2, pctTenths 2 3), (Cell.str "Large", 1, pctTenths 1 3)],
            none, false⟩] := rfl
  exact ⟨rfl, hp2, hp1, by rw [h0, hp2, hp1]⟩

/-! ## Claim C5: salary trend means -/

/-- C5.  On the spec's scenario dataset — rows (Tech, 100000, High),
(Tech, 120000, High), (Finance, 90000, Low) — the Salary Trends chart
plots exactly the arithmetic means per (industry, adoption level) pair
present, (Tech, High) at 110000 and (Finance, Low) at 90000, with no
confidence-interval band (the source passes `ci=None`). -/
theorem salary_trend_plots_group_means :
    salaryTrendPoints dsSalary =
      [(Cell.str "Tech", Cell.str "High", 110000),
       (Cell.str "Finance", Cell.str "Low", 90000)] ∧
    renderViz dsSalary ChartOption.salaryTrends =
      Except.ok [Block.subheader "Salary Across Different Industries with AI Adoption Level",
        Block.lineChart "Salary Trends by Industry"
          [(Cell.str "Tech", Cell.str "High", 110000),
           (Cell.str "Finance", Cell.str "Low", 90000)] none] := by
  have hm2 : meanQ [100000, 120000] = 110000 := by norm_num [meanQ]
  have hm1 : meanQ [90000] = 90000 := by norm_num [meanQ]
  have h1 : salaryTrendPoints dsSalary =
      [(Cell.str "Tech", Cell.str "High", meanQ [100000, 120000]),
       (Cell.str "Finance", Cell.str "Low", meanQ [90000])] := rfl
  have h0 : renderViz dsSalary ChartOption.salaryTrends =
      Except.ok [Block.subheader "Salary Across Different Industries with AI Adoption Level",
        Block.lineChart "Salary Trends by Industry" (salaryTrendPoints dsSalary) none] := rfl
  constructor
  · rw [h1, hm2, hm1]
  · rw [h0, h1, hm2, hm1]

/-! ## Claim C8: the raw-data toggle -/

/-- C8.  For every file and every page/chart selection: if the script
run with the toggle off succeeds, then the run with the toggle on
renders exactly the same output with a full render of the dataset's
rows appended beneath it, and neither run alters the dataset or the
page/chart selection (the returned widget state is the input state). -/
theorem raw_data_toggle_appends_only (f : Option String) (p : Page) (c : ChartOption)
    (o : List Block) (s1 : AppState)
    (h : runScript f ⟨p, c, false⟩ = Except.ok (o, s1)) :
    s1 = ⟨p, c, false⟩ ∧
    ∃ d, load_data f = Except.ok d ∧
      runScript f ⟨p, c, true⟩ =
        Except.ok (o ++ [Block.subheader "Raw Dataset", Block.table d.rows], ⟨p, c, true⟩) := by
  rw [runScript] at h
  cases hl : load_data f with
  | error e => rw [hl] at h; cases h
  | ok d =>
    rw [hl] at h
    dsimp only at h
    have hsame : renderPage d ⟨p, c, true⟩ = renderPage d ⟨p, c, false⟩ := rfl
    cases hr : renderPage d ⟨p, c, false⟩ with
    | error e => rw [hr] at h; cases h
    | ok blocks =>
      rw [hr] at h
      dsimp only at h
      rw [if_neg (fun hh => Bool.noConfusion hh), List.append_nil] at h
      injection h with hpair
      simp only [Prod.mk.injEq] at hpair
      obtain ⟨ho, hs⟩ := hpair
      refine ⟨hs.symm, d, rfl, ?_⟩
      rw [runScript, hl]
      dsimp only
      rw [hsame, hr]
      dsimp only
      rw [if_pos rfl, ← ho]

/-- Witness for C8: a concrete run of the Overview page on `csvSmall`,
with and without the toggle. -/
theorem raw_data_toggle_appends_only_witness :
    (⟨Page.overview, ChartOption.companySize, false⟩ : AppState) =
      ⟨Page.overview, ChartOption.companySize, false⟩ ∧
    ∃ d, load_data (some csvSmall) = Except.ok d ∧
      runScript (some csvSmall) ⟨Page.overview, ChartOption.companySize, true⟩ =
        Except.ok (ovSmallBlocks ++ [Block.subheader "Raw Dataset", Block.table d.rows],
          ⟨Page.overview, ChartOption.companySize, true⟩) :=
  raw_data_toggle_appends_only (some csvSmall) Page.overview ChartOption.companySize
    ovSmallBlocks ⟨Page.overview, ChartOption.companySize, false⟩ rfl

end JobMarket
